import Mathlib

/-
  Verification development for the key-service repository.

  Shallow embedding of the key lifecycle engine:
  - src/models.py          : KeyPair record and the (tenant_id, key_id) uniqueness constraint
  - src/repositories.py    : SQLAlchemyKeyRepository operations (state = list of records)
  - src/helpers.py         : b64url, b64url_uint, generate_kid_non_colliding
  - src/keyservice/strategies.py : RSA/Ed25519/EC-P256 strategy metadata and validation
  - src/keyservice/auth.py : make_require_roles tenant/role gate
  - src/app.py             : create_key, rotate_key, disable_key, list_keys route handlers

  Timestamps are modelled as integers (unit: days, matching timedelta(days=...)).
  Randomness (random.randint draws, key material from the crypto library) is
  modelled as explicit input streams/arguments.  Flask abort(status, description)
  is modelled by the HErr error type carrying the HTTP status and description.
-/

namespace KeyService

/-- KeyPair record, from src/models.py (class KeyPair). -/
structure KeyPair where
  tenant_id : String
  key_id : Int
  key_type : String
  curve : Option String
  private_key_pem : String
  public_key_pem : String
  key_size : Option Nat
  created_at : Int
  expires_at : Int
  active : Bool
deriving Repr, DecidableEq

/-- Repository state: the key_pairs table as a list of rows (insertion order). -/
abbrev Repo := List KeyPair

/-- Errors produced via Flask abort(status, description) or uncaught exceptions
    (modelled as status 500).  Spec mapping: 400 = InvalidParameter,
    404 = NotFound, 409 = Conflict, 500 = AllocationExhausted/StorageFailure. -/
inductive HErr where
  | e400 (description : String)
  | e404 (description : String)
  | e409 (description : String)
  | e500 (description : String)
deriving Repr, DecidableEq

/-- Row predicate for the WHERE tenant_id = t AND key_id = k filters. -/
def keyMatches (t : String) (k : Int) (r : KeyPair) : Bool :=
  r.tenant_id == t && r.key_id == k

/-- Repository exists, from src/repositories.py (SQLAlchemyKeyRepository.exists). -/
def existsKey (repo : Repo) (tenant_id : String) (key_id : Int) : Bool :=
  repo.any (keyMatches tenant_id key_id)

/-- Repository create, from src/repositories.py (SQLAlchemyKeyRepository.create).
    The INSERT is subject to the UniqueConstraint("tenant_id", "key_id") of
    src/models.py (KeyPair.__table_args__): a duplicate raises IntegrityError,
    modelled as a 500-class storage error. -/
def Repo.create (repo : Repo) (kp : KeyPair) : Except HErr Repo :=
  if existsKey repo kp.tenant_id kp.key_id then
    .error (.e500 "IntegrityError: UNIQUE constraint uq_tenant_kid failed")
  else
    .ok (repo ++ [kp])

/-- Repository get_one, from src/repositories.py (SQLAlchemyKeyRepository.get_one). -/
def get_one (repo : Repo) (tenant_id : String) (key_id : Int) : Option KeyPair :=
  repo.find? (keyMatches tenant_id key_id)

/-- Copy of a row with the active column set, used to model UPDATE ... SET active. -/
def setActive (r : KeyPair) (b : Bool) : KeyPair :=
  ⟨r.tenant_id, r.key_id, r.key_type, r.curve, r.private_key_pem, r.public_key_pem,
   r.key_size, r.created_at, r.expires_at, b⟩

/-- Repository save, from src/repositories.py (SQLAlchemyKeyRepository.save):
    persists the mutated row; active is the only column ever mutated
    post-creation, so this updates the active column of the row(s) keyed by
    (tenant_id, key_id), exactly as repositories_psycopg.py's save spells out. -/
def save (repo : Repo) (kp : KeyPair) : Repo :=
  repo.map (fun r => if keyMatches kp.tenant_id kp.key_id r then setActive r kp.active else r)

/-- Row predicate of deactivate_others' UPDATE:
    tenant_id = t AND active AND expires_at > now AND key_id != exclude. -/
def deactPred (t : String) (exclude : Int) (now : Int) (r : KeyPair) : Bool :=
  r.tenant_id == t && r.active && decide (now < r.expires_at) && r.key_id != exclude

/-- Repository deactivate_others, from src/repositories.py
    (SQLAlchemyKeyRepository.deactivate_others): one UPDATE flipping active to
    false on every matching row, returning the rowcount. -/
def deactivate_others (repo : Repo) (tenant_id : String) (exclude_key_id : Int)
    (now : Int) : Repo × Nat :=
  (repo.map (fun r => if deactPred tenant_id exclude_key_id now r then setActive r false else r),
   repo.countP (deactPred tenant_id exclude_key_id now))

/-- Row predicate of get_active_unexpired: tenant, active = TRUE, expires_at > now. -/
def activeUnexpiredPred (t : String) (now : Int) (r : KeyPair) : Bool :=
  r.tenant_id == t && r.active && decide (now < r.expires_at)

/-- Insertion step for ORDER BY created_at DESC. -/
def insertByCreatedDesc (r : KeyPair) : List KeyPair → List KeyPair
  | [] => [r]
  | x :: xs => if x.created_at ≤ r.created_at then r :: x :: xs else x :: insertByCreatedDesc r xs

/-- ORDER BY created_at DESC, modelled as an insertion sort. -/
def sortByCreatedDesc : List KeyPair → List KeyPair
  | [] => []
  | x :: xs => insertByCreatedDesc x (sortByCreatedDesc xs)

/-- Repository get_active_unexpired, from src/repositories.py
    (SQLAlchemyKeyRepository.get_active_unexpired): filter to active = TRUE and
    expires_at > now within the tenant, ordered newest-created_at-first. -/
def get_active_unexpired (repo : Repo) (tenant_id : String) (now : Int) : List KeyPair :=
  sortByCreatedDesc (repo.filter (activeUnexpiredPred tenant_id now))

/-- Row predicate of list_keys: tenant filter, plus activity filter when the
    active parameter is present, plus expires_at > now when include_expired is
    false. -/
def listPred (t : String) (active : Option Bool) (include_expired : Bool) (now : Int)
    (r : KeyPair) : Bool :=
  r.tenant_id == t
    && (match active with | none => true | some b => r.active == b)
    && (include_expired || decide (now < r.expires_at))

/-- Repository list_keys, from src/repositories.py
    (SQLAlchemyKeyRepository.list_keys): count of the filtered set, then the
    ordered page OFFSET offset LIMIT limit. -/
def list_keys_repo (repo : Repo) (tenant_id : String) (active : Option Bool)
    (include_expired : Bool) (now : Int) (limit offset : Int) : List KeyPair × Nat :=
  let filtered := repo.filter (listPred tenant_id active include_expired now)
  (((sortByCreatedDesc filtered).drop offset.toNat).take limit.toNat, filtered.length)

/-- ASCII lowercase of a character, modelling Python's str.lower() on the
    ASCII inputs this service compares (key types, query flags). -/
def lowerChar (c : Char) : Char :=
  if 65 ≤ c.toNat ∧ c.toNat ≤ 90 then Char.ofNat (c.toNat + 32) else c

/-- ASCII lowercase of a string (Python's .lower() on this service's inputs). -/
def toLowerAscii (s : String) : String :=
  String.mk (s.toList.map lowerChar)

/- ---------- helpers.py ---------- -/

/-- Character of the urlsafe base64 alphabet at index i (A-Z a-z 0-9 - _). -/
def b64Char (i : Nat) : Char :=
  if i < 26 then Char.ofNat (65 + i)
  else if i < 52 then Char.ofNat (97 + (i - 26))
  else if i < 62 then Char.ofNat (48 + (i - 52))
  else if i = 62 then '-' else '_'

/-- Padded urlsafe base64 of a byte list (base64.urlsafe_b64encode). -/
def b64encodePadded : List Nat → List Char
  | [] => []
  | [a] => [b64Char (a / 4), b64Char (a % 4 * 16), '=', '=']
  | [a, b] => [b64Char (a / 4), b64Char (a % 4 * 16 + b / 16), b64Char (b % 16 * 4), '=']
  | a :: b :: c :: rest =>
    b64Char (a / 4) :: b64Char (a % 4 * 16 + b / 16) :: b64Char (b % 16 * 4 + c / 64)
      :: b64Char (c % 64) :: b64encodePadded rest

/-- Strip of the trailing padding characters (rstrip of the equals sign). -/
def rstripEq (cs : List Char) : List Char :=
  ((cs.reverse).dropWhile (fun c => c == '=')).reverse

/-- b64url, from src/helpers.py line 5: urlsafe base64 with the padding stripped. -/
def b64url (data : List Nat) : String :=
  String.mk (rstripEq (b64encodePadded data))

/-- Big-endian bytes of n with exactly l bytes (Python int.to_bytes(l, "big"),
    low byte last). -/
def toBytesBE : Nat → Nat → List Nat
  | _, 0 => []
  | n, l + 1 => toBytesBE (n / 256) l ++ [n % 256]

/-- Big-endian value of a byte list (decoder used to state the round trip). -/
def fromBytesBE (bs : List Nat) : Nat :=
  bs.foldl (fun acc b => acc * 256 + b) 0

/-- Fuel-indexed helper for the bit length (the fuel bounds the recursion
    depth; any fuel at least n computes the true value). -/
def bitLengthAux : Nat → Nat → Nat
  | 0, _ => 0
  | fuel + 1, n => if n = 0 then 0 else bitLengthAux fuel (n / 2) + 1

/-- Python's int.bit_length(): 0 for 0, floor(log2 n) + 1 otherwise. -/
def bitLength (n : Nat) : Nat :=
  bitLengthAux n n

/-- Byte string published for the unsigned integer n: length is
    (n.bit_length() + 7) // 8, from src/helpers.py line 9. -/
def uintBytes (n : Nat) : List Nat :=
  toBytesBE n ((bitLength n + 7) / 8)

/-- b64url_uint, from src/helpers.py lines 8-10. -/
def b64url_uint (n : Nat) : String :=
  b64url (uintBytes n)

/-- Bounded retry loop of generate_kid_non_colliding: fuel counts remaining
    attempts, i indexes the stream of random draws. -/
def genKidGo (tenant_id : String) (ex : String → Int → Bool) (cands : Nat → Int) :
    Nat → Nat → Option Int
  | 0, _ => none
  | fuel + 1, i => if ex tenant_id (cands i) then genKidGo tenant_id ex cands fuel (i + 1)
                   else some (cands i)

/-- generate_kid_non_colliding, from src/helpers.py lines 15-23.  The stream
    cands models the successive random.randint(10_000_000, 9_999_999_999)
    draws; none models the RuntimeError raised when all attempts collide
    (the spec's AllocationExhausted). -/
def generate_kid_non_colliding (tenant_id : String) (ex : String → Int → Bool)
    (cands : Nat → Int) (attempts : Nat := 24) : Option Int :=
  genKidGo tenant_id ex cands attempts 0

/- ---------- keyservice/strategies.py ---------- -/

/-- Descriptor returned by generate_pair: the meta dict {alg, curve, key_size}. -/
structure Meta where
  alg : String
  curve : Option String
  key_size : Option Nat
deriving Repr, DecidableEq

/-- Ascending insertion of a Nat, for the sorted(...) of the error message. -/
def insertNatAsc (n : Nat) : List Nat → List Nat
  | [] => [n]
  | x :: xs => if n ≤ x then n :: x :: xs else x :: insertNatAsc n xs

/-- Ascending sort of a Nat list (Python's sorted). -/
def sortNatsAsc : List Nat → List Nat
  | [] => []
  | x :: xs => insertNatAsc x (sortNatsAsc xs)

/-- RSAKeyStrategy.generate_pair, from src/keyservice/strategies.py lines 29-43,
    restricted to its validation and descriptor logic (the generated PEM pair is
    crypto-library randomness, supplied to the route handler as an argument).
    Python's size = key_size or self.default_size is falsy-aware: both an
    absent hint and a hint of 0 fall back to the default size. -/
def rsa_generate_pair (allowed_sizes : List Nat) (default_size : Nat)
    (key_size : Option Nat) : Except String Meta :=
  let size := match key_size with
    | none => default_size
    | some k => if k == 0 then default_size else k
  if allowed_sizes.contains size then .ok ⟨"RS256", none, some size⟩
  else .error ("key_size must be one of " ++ toString (sortNatsAsc allowed_sizes))

/-- StrategyRegistry.get followed by generate_pair, for the three registered
    strategies of src/keyservice/strategies.py (rsa, ed25519, ec-p256);
    an unknown name raises ValueError (registry.get). -/
def registry_generate (allowed_sizes : List Nat) (default_size : Nat)
    (key_type : String) (key_size : Option Nat) : Except String Meta :=
  if key_type == "rsa" then rsa_generate_pair allowed_sizes default_size key_size
  else if key_type == "ed25519" then .ok ⟨"EdDSA", some "Ed25519", none⟩
  else if key_type == "ec-p256" then .ok ⟨"ES256", some "P-256", none⟩
  else .error ("Unsupported key_type '" ++ key_type ++ "'. Supported: ec-p256, ed25519, rsa")

/- ---------- keyservice/auth.py ---------- -/

/-- Terminal outcome of the require_roles wrapper once a principal is resolved:
    the wrapped view function runs, or the request aborts 403 with the given
    description. -/
inductive GateOutcome where
  | runs
  | forbidden (description : String)
deriving Repr, DecidableEq

/-- Tenant and role enforcement of make_require_roles, from
    src/keyservice/auth.py lines 113-122 (after authenticate resolved the
    principal): tenant check unless admin_global, then role check. -/
def require_roles_gate (required : List String) (principal_tenant : Option String)
    (roles : List String) (path_tenant : Option String) : GateOutcome :=
  let tenant_ok := roles.contains "admin_global" || principal_tenant == path_tenant
  if !tenant_ok then .forbidden "Forbidden for tenant"
  else if roles.contains "admin" || roles.contains "admin_global"
      || (!required.isEmpty && required.any (fun r => roles.contains r)) then .runs
  else .forbidden "Insufficient role"

/- ---------- app.py route handlers ---------- -/

/-- Value of the key_id field of the JSON payload: an integer, or JSON of some
    other type (string, float, ...), which create_key rejects. -/
inductive KidParam where
  | int (i : Int)
  | nonInt
deriving Repr, DecidableEq

/-- Request payload of the create/rotate routes (absent fields are none). -/
structure Payload where
  key_type : Option String
  key_size : Option Nat
  duration_days : Option Int
  key_id : Option KidParam
  deactivate_previous : Option Bool
deriving Repr, DecidableEq

/-- Configuration values of src/keyservice/config.py used by the handlers. -/
structure Cfg where
  DEFAULT_KEY_TYPE : String
  DEFAULT_KEY_SIZE : Nat
  DEFAULT_DURATION_DAYS : Int
  ALLOWED_RSA_SIZES : List Nat
  LIST_DEFAULT_LIMIT : Int
  LIST_MAX_LIMIT : Int
deriving Repr

/-- Default configuration (src/keyservice/config.py with no env overrides). -/
def cfgDefault : Cfg :=
  ⟨"rsa", 2048, 90, [2048, 3072, 4096], 50, 200⟩

/-- The key_id block of create_key, from src/app.py lines 69-76: allocate when
    absent; with an explicit value, reject non-integers (400) and existing ids
    (409). -/
def createKid (repo : Repo) (tenant_id : String) (key_id : Option KidParam)
    (cands : Nat → Int) : Except HErr Int :=
  match key_id with
  | none =>
    match generate_kid_non_colliding tenant_id (fun t k => existsKey repo t k) cands 24 with
    | some kid => .ok kid
    | none => .error (.e500 "Failed to generate a unique key_id; try again.")
  | some (.int kid) =>
    if existsKey repo tenant_id kid then
      .error (.e409 "A key with this key_id already exists for this tenant")
    else .ok kid
  | some .nonInt => .error (.e400 "key_id must be an integer")

/-- Row inserted by create_key (src/app.py lines 88-92): the KeyPair(...)
    constructed from the allocated/validated key_id, the strategy's meta and
    material, created_at = now, expires_at = now + timedelta(days=duration). -/
def newKeyPair (tenant_id : String) (kid : Int) (key_type : String) (meta : Meta)
    (priv_pem pub_pem : String) (now duration_days : Int) : KeyPair :=
  ⟨tenant_id, kid, key_type, meta.curve, priv_pem, pub_pem, meta.key_size,
   now, now + duration_days, true⟩

/-- create_key, from src/app.py lines 62-98.  cands models the random draws of
    the allocator; priv_pem/pub_pem model the key material produced by the
    strategy's crypto calls; now models now_utc().  Returns the new repository
    state and the created record (the JSON response is a projection of it). -/
def create_key (cfg : Cfg) (repo : Repo) (tenant_id : String) (payload : Payload)
    (cands : Nat → Int) (priv_pem pub_pem : String) (now : Int) :
    Except HErr (Repo × KeyPair) :=
  match createKid repo tenant_id payload.key_id cands with
  | .error e => .error e
  | .ok kid =>
    if payload.duration_days.getD cfg.DEFAULT_DURATION_DAYS ≤ 0 then
      .error (.e400 "duration_days must be positive")
    else
      match registry_generate cfg.ALLOWED_RSA_SIZES cfg.DEFAULT_KEY_SIZE
          (toLowerAscii (payload.key_type.getD cfg.DEFAULT_KEY_TYPE)) payload.key_size with
      | .error msg => .error (.e400 msg)
      | .ok meta =>
        match Repo.create repo (newKeyPair tenant_id kid
            (toLowerAscii (payload.key_type.getD cfg.DEFAULT_KEY_TYPE)) meta priv_pem pub_pem
            now (payload.duration_days.getD cfg.DEFAULT_DURATION_DAYS)) with
        | .error e => .error e
        | .ok repo2 => .ok (repo2, newKeyPair tenant_id kid
            (toLowerAscii (payload.key_type.getD cfg.DEFAULT_KEY_TYPE)) meta priv_pem pub_pem
            now (payload.duration_days.getD cfg.DEFAULT_DURATION_DAYS))

/-- rotate_key, from src/app.py lines 102-110: reuse of the create_key
    implementation, then deactivate_others excluding the new key_id when
    deactivate_previous.  The two now_utc() calls of the request are modelled
    as now_create and now_deact. -/
def rotate_key (cfg : Cfg) (repo : Repo) (tenant_id : String) (payload : Payload)
    (cands : Nat → Int) (priv_pem pub_pem : String) (now_create now_deact : Int) :
    Except HErr (Repo × KeyPair) :=
  let deactivate_prev := payload.deactivate_previous.getD false
  match create_key cfg repo tenant_id payload cands priv_pem pub_pem now_create with
  | .error e => .error e
  | .ok (repo1, kp) =>
    if deactivate_prev then .ok ((deactivate_others repo1 tenant_id kp.key_id now_deact).1, kp)
    else .ok (repo1, kp)

/-- disable_key, from src/app.py lines 114-120: load by (tenant_id, key_id),
    404 when absent, else flip active to false and save. -/
def disable_key (repo : Repo) (tenant_id : String) (key_id : Int) :
    Except HErr Repo :=
  match get_one repo tenant_id key_id with
  | none => .error (.e404 "Key not found")
  | some kp => .ok (save repo (setActive kp false))

/-- Response body of the list route. -/
structure ListResponse where
  total : Nat
  items : List KeyPair
  limit : Int
  offset : Int
deriving Repr, DecidableEq

/-- list_keys route, from src/app.py lines 131-145: parse the query strings
    (active compares lowercased to "true"; include_expired defaults "false"),
    clamp limit to LIST_MAX_LIMIT, read offset with default 0 (no further
    validation), delegate to the repository.  No branch of the handler aborts,
    so the result is always ok. -/
def list_keys_route (cfg : Cfg) (repo : Repo) (tenant_id : String)
    (active_q : Option String) (include_expired_q : Option String)
    (limit_q : Option Int) (offset_q : Option Int) (now : Int) :
    Except HErr ListResponse :=
  let active := active_q.map (fun s => toLowerAscii s == "true")
  let include_expired := toLowerAscii (include_expired_q.getD "false") == "true"
  let limit := min (limit_q.getD cfg.LIST_DEFAULT_LIMIT) cfg.LIST_MAX_LIMIT
  let offset := offset_q.getD 0
  let rt := list_keys_repo repo tenant_id active include_expired now limit offset
  .ok ⟨rt.2, rt.1, limit, offset⟩

/- ---------- helper lemmas ---------- -/

theorem keyMatches_iff (t : String) (k : Int) (r : KeyPair) :
    keyMatches t k r = true ↔ r.tenant_id = t ∧ r.key_id = k := by
  simp [keyMatches]

theorem keyMatches_setActive (t : String) (k : Int) (r : KeyPair) (b : Bool) :
    keyMatches t k (setActive r b) = keyMatches t k r := by
  simp [keyMatches, setActive]

theorem existsKey_iff (repo : Repo) (t : String) (k : Int) :
    existsKey repo t k = true ↔ ∃ r ∈ repo, r.tenant_id = t ∧ r.key_id = k := by
  simp [existsKey, List.any_eq_true, keyMatches_iff]

theorem mem_insertByCreatedDesc (a r : KeyPair) (l : List KeyPair) :
    a ∈ insertByCreatedDesc r l ↔ a = r ∨ a ∈ l := by
  induction l with
  | nil => simp [insertByCreatedDesc]
  | cons x xs ih =>
    by_cases h : x.created_at ≤ r.created_at
    · simp [insertByCreatedDesc, h]
    · simp [insertByCreatedDesc, h, ih]
      tauto

theorem mem_sortByCreatedDesc (a : KeyPair) (l : List KeyPair) :
    a ∈ sortByCreatedDesc l ↔ a ∈ l := by
  induction l with
  | nil => simp [sortByCreatedDesc]
  | cons x xs ih => simp [sortByCreatedDesc, mem_insertByCreatedDesc, ih]

theorem pairwise_insertByCreatedDesc (r : KeyPair) (l : List KeyPair)
    (h : l.Pairwise (fun a b => b.created_at ≤ a.created_at)) :
    (insertByCreatedDesc r l).Pairwise (fun a b => b.created_at ≤ a.created_at) := by
  induction l with
  | nil => simp [insertByCreatedDesc]
  | cons x xs ih =>
    rcases List.pairwise_cons.mp h with ⟨hx, hxs⟩
    by_cases hc : x.created_at ≤ r.created_at
    · rw [insertByCreatedDesc, if_pos hc]
      refine List.pairwise_cons.mpr ⟨?_, h⟩
      intro y hy
      rcases List.mem_cons.mp hy with rfl | hy2
      · exact hc
      · exact le_trans (hx y hy2) hc
    · rw [insertByCreatedDesc, if_neg hc]
      refine List.pairwise_cons.mpr ⟨?_, ih hxs⟩
      intro y hy
      rcases (mem_insertByCreatedDesc y r xs).mp hy with rfl | hy2
      · exact le_of_lt (lt_of_not_le hc)
      · exact hx y hy2

theorem pairwise_sortByCreatedDesc (l : List KeyPair) :
    (sortByCreatedDesc l).Pairwise (fun a b => b.created_at ≤ a.created_at) := by
  induction l with
  | nil => simp [sortByCreatedDesc]
  | cons x xs ih => exact pairwise_insertByCreatedDesc x _ ih

/- ---------- C2: authorization gate ---------- -/

theorem tenantCond_iff (roles : List String) (pt path : Option String) :
    (roles.contains "admin_global" || pt == path) = true ↔
      "admin_global" ∈ roles ∨ pt = path := by
  simp

theorem roleCond_iff (required roles : List String) :
    (roles.contains "admin" || roles.contains "admin_global"
      || (!required.isEmpty && required.any (fun r => roles.contains r))) = true ↔
      "admin" ∈ roles ∨ "admin_global" ∈ roles ∨ ∃ r ∈ required, r ∈ roles := by
  simp only [Bool.or_eq_true, Bool.and_eq_true, Bool.not_eq_true', List.any_eq_true,
    List.isEmpty_eq_false, List.contains_iff_exists_mem_beq]
  constructor
  · rintro ((h | h) | ⟨_, r, hr, hrr⟩)
    · exact Or.inl (by simpa using h)
    · exact Or.inr (Or.inl (by simpa using h))
    · exact Or.inr (Or.inr ⟨r, hr, by simpa using hrr⟩)
  · rintro (h | h | ⟨r, hr, hrr⟩)
    · exact Or.inl (Or.inl (by simpa using h))
    · exact Or.inl (Or.inr (by simpa using h))
    · refine Or.inr ⟨?_, r, hr, by simpa using hrr⟩
      intro h0
      rw [h0] at hr
      cases hr

/-- C2: for every request to a protected operation with resolved principal
    roles and path tenant: unless admin_global is among the roles, a tenant
    mismatch yields Forbidden, and this tenant check is evaluated before the
    role check (a mismatching request is rejected with the tenant-check
    description whatever its roles); when the tenant check passes, the
    operation runs if and only if admin, or admin_global, or a role of the
    operation's required set is among the roles — otherwise the outcome is
    Forbidden. -/
theorem auth_gate_spec (required roles : List String)
    (principal_tenant path_tenant : Option String) :
    ((("admin_global" ∈ roles) → False) → principal_tenant ≠ path_tenant →
      require_roles_gate required principal_tenant roles path_tenant =
        .forbidden "Forbidden for tenant")
  ∧ (("admin_global" ∈ roles ∨ principal_tenant = path_tenant) →
      (require_roles_gate required principal_tenant roles path_tenant = .runs ↔
        "admin" ∈ roles ∨ "admin_global" ∈ roles ∨ ∃ r ∈ required, r ∈ roles))
  ∧ (("admin_global" ∈ roles ∨ principal_tenant = path_tenant) →
      (("admin" ∈ roles ∨ "admin_global" ∈ roles ∨ ∃ r ∈ required, r ∈ roles) → False) →
      require_roles_gate required principal_tenant roles path_tenant =
        .forbidden "Insufficient role") := by
  refine ⟨?_, ?_, ?_⟩
  · intro hag hne
    have h1 : (roles.contains "admin_global" || principal_tenant == path_tenant) = false := by
      rw [Bool.eq_false_iff]
      intro h
      rcases (tenantCond_iff roles principal_tenant path_tenant).mp h with h | h
      · exact hag h
      · exact hne h
    simp only [require_roles_gate, h1]
    rfl
  · intro hok
    have h1 := (tenantCond_iff roles principal_tenant path_tenant).mpr hok
    by_cases hc : "admin" ∈ roles ∨ "admin_global" ∈ roles ∨ ∃ r ∈ required, r ∈ roles
    · have h2 := (roleCond_iff required roles).mpr hc
      simp only [require_roles_gate, h1, h2]
      simpa using hc
    · have h2 : (roles.contains "admin" || roles.contains "admin_global"
          || (!required.isEmpty && required.any (fun r => roles.contains r))) = false := by
        rw [Bool.eq_false_iff]
        intro h
        exact hc ((roleCond_iff required roles).mp h)
      simp only [require_roles_gate, h1, h2]
      simpa using hc
  · intro hok hno
    have h1 := (tenantCond_iff roles principal_tenant path_tenant).mpr hok
    have h2 : (roles.contains "admin" || roles.contains "admin_global"
        || (!required.isEmpty && required.any (fun r => roles.contains r))) = false := by
      rw [Bool.eq_false_iff]
      intro h
      exact hno ((roleCond_iff required roles).mp h)
    simp only [require_roles_gate, h1, h2]
    rfl

/-- C2 witness: concrete gate evaluations through auth_gate_spec — a tenant
    mismatch without admin_global is rejected by the tenant check even though
    the roles would pass the role check, and a matching viewer request runs. -/
theorem auth_gate_spec_witness :
    require_roles_gate ["view", "admin"] (some "a") ["view"] (some "b") =
      .forbidden "Forbidden for tenant"
  ∧ require_roles_gate ["view", "admin"] (some "a") ["view"] (some "a") = .runs := by
  constructor
  · exact (auth_gate_spec ["view", "admin"] ["view"] (some "a") (some "b")).1
      (by decide) (by decide)
  · exact ((auth_gate_spec ["view", "admin"] ["view"] (some "a") (some "a")).2.1
      (Or.inr rfl)).mpr (Or.inr (Or.inr ⟨"view", by decide, by decide⟩))

/- ---------- C5: RSA size hint validation ---------- -/

/-- C5 counterexample: a size_hint of 0 violates the allowed set
    {2048, 3072, 4096}, yet generate_pair succeeds with the default size
    instead of failing with InvalidParameter, because Python's
    size = key_size or default treats 0 as absent.  This refutes the claim
    that any violating hint fails. -/
theorem rsa_zero_hint_not_rejected :
    ((0 : Nat) ∈ ([2048, 3072, 4096] : List Nat) → False)
  ∧ rsa_generate_pair [2048, 3072, 4096] 2048 (some 0) = .ok ⟨"RS256", none, some 2048⟩ :=
  ⟨by decide, rfl⟩

/-- C5 amended: when no size_hint is given — or the hint is 0, which the
    falsy-aware size = key_size or default treats as absent — the configured
    default size is used and the descriptor reports that size with alg RS256
    (provided the default belongs to the allowed set); any nonzero hint in the
    allowed set is used as given; any nonzero hint outside the allowed set
    fails with an InvalidParameter error whose message names the allowed set. -/
theorem rsa_size_validation (allowed : List Nat) (default_size : Nat) :
    (default_size ∈ allowed →
      rsa_generate_pair allowed default_size none = .ok ⟨"RS256", none, some default_size⟩)
  ∧ (default_size ∈ allowed →
      rsa_generate_pair allowed default_size (some 0) = .ok ⟨"RS256", none, some default_size⟩)
  ∧ (∀ k, k ≠ 0 → k ∈ allowed →
      rsa_generate_pair allowed default_size (some k) = .ok ⟨"RS256", none, some k⟩)
  ∧ (∀ k, k ≠ 0 → (k ∈ allowed → False) →
      rsa_generate_pair allowed default_size (some k) =
        .error ("key_size must be one of " ++ toString (sortNatsAsc allowed))) := by
  refine ⟨?_, ?_, ?_, ?_⟩
  · intro h
    simp [rsa_generate_pair, h]
  · intro h
    simp [rsa_generate_pair, h]
  · intro k hk h
    have hk2 : (k == 0) = false := by simp [hk]
    simp [rsa_generate_pair, hk2, h]
  · intro k hk h
    have hk2 : (k == 0) = false := by simp [hk]
    have h2 : allowed.contains k = false := by
      rw [Bool.eq_false_iff]
      intro hc
      exact h (by simpa using hc)
    simp [rsa_generate_pair, hk2, h2]
    exact h

/-- C5 witness: the default configuration issues RS256 descriptors with
    key_size 2048 when no hint is given, and rejects hint 1234 naming the
    allowed set, via rsa_size_validation. -/
theorem rsa_size_validation_witness :
    rsa_generate_pair [2048, 3072, 4096] 2048 none = .ok ⟨"RS256", none, some 2048⟩
  ∧ rsa_generate_pair [2048, 3072, 4096] 2048 (some 1234) =
      .error "key_size must be one of [2048, 3072, 4096]" := by
  constructor
  · exact (rsa_size_validation [2048, 3072, 4096] 2048).1 (by decide)
  · have h := (rsa_size_validation [2048, 3072, 4096] 2048).2.2.2 1234 (by decide) (by decide)
    rw [h]
    rfl

/- ---------- C4: identifier allocator ---------- -/

theorem genKidGo_some (t : String) (ex : String → Int → Bool) (cands : Nat → Int) :
    ∀ fuel i k, genKidGo t ex cands fuel i = some k →
      ∃ j, j < fuel ∧ k = cands (i + j) ∧ ex t (cands (i + j)) = false ∧
        ∀ m, m < j → ex t (cands (i + m)) = true := by
  intro fuel
  induction fuel with
  | zero => intro i k h; simp [genKidGo] at h
  | succ n ih =>
    intro i k h
    rw [genKidGo] at h
    by_cases hc : ex t (cands i) = true
    · rw [if_pos hc] at h
      obtain ⟨j, hj, hk, hfree, hprev⟩ := ih (i + 1) k h
      refine ⟨j + 1, by omega, by rw [hk]; congr 1; omega, ?_, ?_⟩
      · have : i + 1 + j = i + (j + 1) := by omega
        rw [← this]; exact hfree
      · intro m hm
        cases m with
        | zero => simpa using hc
        | succ m2 =>
          have : i + (m2 + 1) = i + 1 + m2 := by omega
          rw [this]
          exact hprev m2 (by omega)
    · rw [if_neg hc] at h
      refine ⟨0, by omega, ?_, ?_, ?_⟩
      · simpa using h.symm
      · simpa using Bool.eq_false_iff.mpr hc
      · intro m hm; omega

theorem genKidGo_none (t : String) (ex : String → Int → Bool) (cands : Nat → Int) :
    ∀ fuel i, (∀ j, j < fuel → ex t (cands (i + j)) = true) →
      genKidGo t ex cands fuel i = none := by
  intro fuel
  induction fuel with
  | zero => intro i _; rfl
  | succ n ih =>
    intro i h
    rw [genKidGo]
    have h0 : ex t (cands i) = true := by simpa using h 0 (by omega)
    rw [if_pos h0]
    refine ih (i + 1) ?_
    intro j hj
    have : i + 1 + j = i + (j + 1) := by omega
    rw [this]
    exact h (j + 1) (by omega)

/-- C4: with the random draws modelled as a stream of candidates in the
    documented range 10,000,000–9,999,999,999 (random.randint's inclusive
    bounds), the allocator returns the first drawn candidate for which the
    existence predicate is false — so if the predicate reports collisions for
    the first two candidates and none for the third, the third is returned
    within the default budget of 24 attempts — and when all 24 drawn
    candidates collide it fails (the raised error the spec names
    AllocationExhausted) instead of looping forever. -/
theorem allocator_spec (t : String) (ex : String → Int → Bool) (cands : Nat → Int)
    (hrange : ∀ i, 10000000 ≤ cands i ∧ cands i ≤ 9999999999) :
    (∀ k, generate_kid_non_colliding t ex cands 24 = some k →
      10000000 ≤ k ∧ k ≤ 9999999999 ∧ ex t k = false ∧
        ∃ j, j < 24 ∧ k = cands j ∧ ∀ m, m < j → ex t (cands m) = true)
  ∧ (ex t (cands 0) = true → ex t (cands 1) = true → ex t (cands 2) = false →
      generate_kid_non_colliding t ex cands 24 = some (cands 2))
  ∧ ((∀ j, j < 24 → ex t (cands j) = true) →
      generate_kid_non_colliding t ex cands 24 = none) := by
  refine ⟨?_, ?_, ?_⟩
  · intro k h
    obtain ⟨j, hj, hk, hfree, hprev⟩ := genKidGo_some t ex cands 24 0 k h
    simp only [Nat.zero_add] at hk hfree hprev
    refine ⟨by rw [hk]; exact (hrange j).1, by rw [hk]; exact (hrange j).2,
      by rw [hk]; exact hfree, j, hj, hk, hprev⟩
  · intro h0 h1 h2
    rw [generate_kid_non_colliding, genKidGo, if_pos h0, genKidGo, if_pos h1,
      genKidGo, if_neg (by simp [h2])]
  · intro h
    exact genKidGo_none t ex cands 24 0 (by simpa using h)

/-- Candidate stream used as the C4 witness: draws cycling through
    10000000, 10000001, 10000002, all inside the documented range. -/
def candsW (i : Nat) : Int :=
  10000000 + ((i % 3 : Nat) : Int)

/-- Existence predicate used as the C4 witness: collisions exactly on the
    first two candidate values. -/
def exW (_ : String) (k : Int) : Bool :=
  k == 10000000 || k == 10000001

/-- C4 witness: with two collisions then a free candidate, the allocator
    returns the third candidate, via allocator_spec. -/
theorem allocator_spec_witness :
    generate_kid_non_colliding "t" exW candsW 24 = some 10000002 := by
  have hrange : ∀ i, 10000000 ≤ candsW i ∧ candsW i ≤ 9999999999 := by
    intro i
    have h3 : i % 3 < 3 := Nat.mod_lt i (by omega)
    constructor
    · simp [candsW]; omega
    · simp [candsW]; omega
  have h := (allocator_spec "t" exW candsW hrange).2.1 (by decide) (by decide) (by decide)
  simpa [candsW] using h

/- ---------- create_key inversion ---------- -/

theorem repoCreate_ok (repo repo2 : Repo) (kp : KeyPair)
    (h : Repo.create repo kp = .ok repo2) :
    repo2 = repo ++ [kp] ∧ existsKey repo kp.tenant_id kp.key_id = false := by
  unfold Repo.create at h
  split at h
  · exact absurd h (by simp)
  · rename_i he
    refine ⟨by injection h with h2; exact h2.symm, Bool.eq_false_iff.mpr he⟩

theorem create_key_ok (cfg : Cfg) (repo : Repo) (t : String) (payload : Payload)
    (cands : Nat → Int) (pv pb : String) (now : Int) (repo1 : Repo) (kp : KeyPair)
    (h : create_key cfg repo t payload cands pv pb now = .ok (repo1, kp)) :
    repo1 = repo ++ [kp] ∧ kp.tenant_id = t ∧ kp.active = true ∧ kp.created_at = now
  ∧ kp.expires_at = now + payload.duration_days.getD cfg.DEFAULT_DURATION_DAYS
  ∧ 0 < payload.duration_days.getD cfg.DEFAULT_DURATION_DAYS
  ∧ existsKey repo t kp.key_id = false
  ∧ (∀ K, payload.key_id = some (.int K) → kp.key_id = K) := by
  unfold create_key at h
  split at h
  · exact absurd h (by simp)
  · rename_i kid hk
    split at h
    · exact absurd h (by simp)
    · rename_i hd
      split at h
      · exact absurd h (by simp)
      · rename_i meta hg
        split at h
        · exact absurd h (by simp)
        · rename_i repo2 hc
          simp only [Except.ok.injEq, Prod.mk.injEq] at h
          obtain ⟨hrepo, hkp⟩ := h
          obtain ⟨hr2, he⟩ := repoCreate_ok _ _ _ hc
          subst hrepo
          refine ⟨by rw [← hkp, hr2], by rw [← hkp]; rfl, by rw [← hkp]; rfl,
            by rw [← hkp]; rfl, by rw [← hkp]; rfl, by omega, ?_, ?_⟩
          · have : kp.key_id = kid := by rw [← hkp]; rfl
            rw [this]
            simpa [newKeyPair] using he
          · intro K hK
            rw [hK] at hk
            simp only [createKid] at hk
            split at hk
            · exact absurd hk (by simp)
            · injection hk with h2
              subst h2
              rw [← hkp]
              rfl

/- ---------- C1: issue / exists / conflict ---------- -/

/-- C1: for every tenant T and identifier K, after issue(T, K) (create_key with
    explicit key_id K) succeeds, exists(T, K) is true; a second issue for the
    same (T, K) fails with Conflict (409); the stored record is still the one
    created by the first issue (the failing call returns no new state, and even
    a raced-past existence check is stopped by the uniqueness constraint of
    KeyPair.__table_args__, modelled in Repo.create). -/
theorem issue_conflict_spec (cfg cfg2 : Cfg) (repo repo1 : Repo) (t : String) (K : Int)
    (p1 p2 : Payload) (cands cands2 : Nat → Int) (pv pb pv2 pb2 : String)
    (now now2 : Int) (kp : KeyPair)
    (h1 : p1.key_id = some (.int K))
    (h2 : p2.key_id = some (.int K))
    (hok : create_key cfg repo t p1 cands pv pb now = .ok (repo1, kp)) :
    existsKey repo1 t K = true
  ∧ create_key cfg2 repo1 t p2 cands2 pv2 pb2 now2 =
      .error (.e409 "A key with this key_id already exists for this tenant")
  ∧ get_one repo1 t K = some kp
  ∧ ∀ kp2 : KeyPair, kp2.tenant_id = t → kp2.key_id = K →
      (Repo.create repo1 kp2).isOk = false := by
  obtain ⟨hrepo, ht, hact, _, _, _, hex, hkid⟩ :=
    create_key_ok cfg repo t p1 cands pv pb now repo1 kp hok
  have hK := hkid K h1
  have hexists1 : existsKey repo1 t K = true := by
    rw [hrepo]
    simp [existsKey, List.any_append, keyMatches, ht, hK]
  refine ⟨hexists1, ?_, ?_, ?_⟩
  · simp [create_key, createKid, h2, hexists1]
  · rw [hrepo, get_one, List.find?_append]
    have hnone : repo.find? (keyMatches t K) = none := by
      rw [List.find?_eq_none]
      intro x hx hpx
      rw [← hK] at hpx
      have : existsKey repo t kp.key_id = true := by
        simp only [existsKey, List.any_eq_true]
        exact ⟨x, hx, hpx⟩
      rw [this] at hex
      cases hex
    rw [hnone]
    simp [keyMatches, ht, hK]
  · intro kp2 ht2 hk2
    simp [Repo.create, ht2, hk2, hexists1, Except.isOk, Except.toBool]

/-- Constant candidate stream for witnesses where allocation is never used. -/
def cands0 (_ : Nat) : Int :=
  0

/-- Record created by the C1 witness run. -/
def kpW : KeyPair :=
  ⟨"t", 7, "rsa", none, "P", "Q", some 2048, 0, 90, true⟩

/-- Payload of the C1 witness run: explicit key_id 7, all else defaulted. -/
def pW : Payload :=
  ⟨none, none, none, some (.int 7), none⟩

/-- Repository state after the first C1 witness issue. -/
def repoW1 : Repo :=
  [kpW]

/-- C1 witness: a concrete successful issue of key_id 7 for tenant t followed
    by a conflicting second issue, via issue_conflict_spec. -/
theorem issue_conflict_spec_witness :
    existsKey repoW1 "t" 7 = true
  ∧ create_key cfgDefault repoW1 "t" pW cands0 "P" "Q" 1 =
      .error (.e409 "A key with this key_id already exists for this tenant")
  ∧ get_one repoW1 "t" 7 = some kpW
  ∧ ∀ kp2 : KeyPair, kp2.tenant_id = "t" → kp2.key_id = 7 →
      (Repo.create repoW1 kp2).isOk = false :=
  issue_conflict_spec cfgDefault cfgDefault [] repoW1 "t" 7 pW pW cands0 cands0
    "P" "Q" "P" "Q" 0 1 kpW rfl rfl rfl

/-- Success of create_key when each of its steps succeeds: the key_id block
    yields kid, the duration check passes, the strategy accepts, and (tenant,
    kid) is free. -/
theorem create_key_isOk_of (cfg : Cfg) (repo : Repo) (t : String) (payload : Payload)
    (cands : Nat → Int) (pv pb : String) (now : Int) (kid : Int)
    (hkid : createKid repo t payload.key_id cands = .ok kid)
    (hdur : ¬ payload.duration_days.getD cfg.DEFAULT_DURATION_DAYS ≤ 0)
    (meta : Meta)
    (hreg : registry_generate cfg.ALLOWED_RSA_SIZES cfg.DEFAULT_KEY_SIZE
      (toLowerAscii (payload.key_type.getD cfg.DEFAULT_KEY_TYPE)) payload.key_size = .ok meta)
    (hex : existsKey repo t kid = false) :
    (create_key cfg repo t payload cands pv pb now).isOk = true := by
  simp only [create_key, hkid, if_neg hdur, hreg]
  rw [Repo.create]
  rw [if_neg (by simpa [newKeyPair] using Bool.eq_false_iff.mp hex)]
  rfl

/- ---------- C6: key_id validation ---------- -/

/-- C6 counterexample: a negative explicit key_id (-5) is not rejected with
    InvalidParameter — the request succeeds and the record is persisted with
    key_id -5, because create_key only checks isinstance(kid, int), never
    positivity. -/
theorem negative_key_id_accepted :
    create_key cfgDefault [] "t" ⟨none, none, none, some (.int (-5)), none⟩ cands0 "P" "Q" 0
      = .ok ([⟨"t", -5, "rsa", none, "P", "Q", some 2048, 0, 90, true⟩],
             ⟨"t", -5, "rsa", none, "P", "Q", some 2048, 0, 90, true⟩) := rfl

/-- C6 amended: a supplied key_id is rejected with InvalidParameter (400,
    before any key material is generated or persisted — the failing call
    returns no new state) iff it is not an integer; any integer key_id,
    positive or not, passes the type check (and proceeds to the existence
    check), there is no positivity requirement.  The same holds for rotate,
    which reuses create_key's implementation. -/
theorem key_id_integer_check (cfg : Cfg) (repo : Repo) (t : String) (payload : Payload)
    (cands : Nat → Int) (pv pb : String) (now : Int) :
    (payload.key_id = some .nonInt →
      create_key cfg repo t payload cands pv pb now =
          .error (.e400 "key_id must be an integer")
        ∧ ∀ nd, rotate_key cfg repo t payload cands pv pb now nd =
          .error (.e400 "key_id must be an integer"))
  ∧ (∀ k : Int, existsKey repo t k = false →
      (create_key cfgDefault repo t ⟨none, none, none, some (.int k), none⟩
        cands pv pb now).isOk = true) := by
  constructor
  · intro h
    constructor
    · simp [create_key, createKid, h]
    · intro nd
      simp [rotate_key, create_key, createKid, h]
  · intro k hk
    have hd : ¬ ((none : Option Int).getD cfgDefault.DEFAULT_DURATION_DAYS ≤ 0) := by decide
    refine create_key_isOk_of cfgDefault repo t ⟨none, none, none, some (.int k), none⟩
      cands pv pb now k ?_ hd ⟨"RS256", none, some 2048⟩ rfl hk
    simp [createKid, hk]

/-- C6 witness: a non-integer key_id is rejected with 400, and key_id 0 (a
    non-positive integer) is accepted, via key_id_integer_check. -/
theorem key_id_integer_check_witness :
    create_key cfgDefault [] "t" ⟨none, none, none, some .nonInt, none⟩ cands0 "P" "Q" 0
      = .error (.e400 "key_id must be an integer")
  ∧ (create_key cfgDefault [] "t" ⟨none, none, none, some (.int 0), none⟩
      cands0 "P" "Q" 0).isOk = true := by
  constructor
  · exact ((key_id_integer_check cfgDefault [] "t" ⟨none, none, none, some .nonInt, none⟩
      cands0 "P" "Q" 0).1 rfl).1
  · exact (key_id_integer_check cfgDefault [] "t" ⟨none, none, none, some .nonInt, none⟩
      cands0 "P" "Q" 0).2 0 rfl

/- ---------- C9: disable idempotence ---------- -/

theorem get_one_save (repo : Repo) (t : String) (k : Int) (kp q : KeyPair)
    (hqt : q.tenant_id = t) (hqk : q.key_id = k)
    (h : get_one repo t k = some kp) :
    get_one (save repo q) t k = some (setActive kp q.active) := by
  induction repo with
  | nil => simp [get_one] at h
  | cons r rs ih =>
    by_cases hm : keyMatches t k r = true
    · rw [get_one, List.find?_cons_of_pos _ hm] at h
      injection h with h2
      subst h2
      simp only [save, List.map_cons, hqt, hqk, if_pos hm]
      rw [get_one, List.find?_cons_of_pos]
      rw [keyMatches_setActive]
      exact hm
    · rw [get_one, List.find?_cons_of_neg _ hm] at h
      simp only [save, List.map_cons, hqt, hqk, if_neg hm]
      rw [get_one, List.find?_cons_of_neg _ hm]
      simpa only [get_one, save, hqt, hqk] using ih h

/-- C9: disable is idempotent — for every existing record (tenant_id, key_id)
    the first disable succeeds and leaves the record with active = false, and a
    second disable on the same key also succeeds (not an error) with
    active = false again; disable on a missing (tenant_id, key_id) fails with
    NotFound (404) and, the failing call returning no new state, changes
    nothing. -/
theorem disable_idempotent_spec (repo : Repo) (t : String) (k : Int) :
    (∀ kp, get_one repo t k = some kp →
      ∃ repo1, disable_key repo t k = .ok repo1
        ∧ get_one repo1 t k = some (setActive kp false)
        ∧ ∃ repo2, disable_key repo1 t k = .ok repo2
            ∧ get_one repo2 t k = some (setActive kp false))
  ∧ (get_one repo t k = none →
      disable_key repo t k = .error (.e404 "Key not found")) := by
  constructor
  · intro kp h
    have hkm : keyMatches t k kp = true := List.find?_some h
    obtain ⟨hkt, hkk⟩ := (keyMatches_iff t k kp).mp hkm
    have hq1t : (setActive kp false).tenant_id = t := by simpa [setActive] using hkt
    have hq1k : (setActive kp false).key_id = k := by simpa [setActive] using hkk
    have hget1 : get_one (save repo (setActive kp false)) t k = some (setActive kp false) :=
      get_one_save repo t k kp (setActive kp false) hq1t hq1k h
    refine ⟨save repo (setActive kp false), by simp [disable_key, h], hget1, ?_⟩
    have hget2 : get_one (save (save repo (setActive kp false)) (setActive kp false)) t k =
        some (setActive kp false) :=
      get_one_save (save repo (setActive kp false)) t k (setActive kp false)
        (setActive kp false) hq1t hq1k hget1
    refine ⟨save (save repo (setActive kp false)) (setActive kp false), ?_, hget2⟩
    simp only [disable_key, hget1]
    rfl
  · intro h
    simp [disable_key, h]

/-- Record used by the C9 witness. -/
def kpW9 : KeyPair :=
  ⟨"t", 9, "rsa", none, "P", "Q", some 2048, 0, 90, true⟩

/-- C9 witness: disabling key 9 of tenant t twice on a concrete repository,
    via disable_idempotent_spec. -/
theorem disable_idempotent_spec_witness :
    ∃ repo1, disable_key [kpW9] "t" 9 = .ok repo1
      ∧ get_one repo1 "t" 9 = some (setActive kpW9 false)
      ∧ ∃ repo2, disable_key repo1 "t" 9 = .ok repo2
          ∧ get_one repo2 "t" 9 = some (setActive kpW9 false) :=
  (disable_idempotent_spec [kpW9] "t" 9).1 kpW9 rfl

/- ---------- C10: tenant isolation ---------- -/

theorem filter_other_map (l : List KeyPair) (other : String) (f : KeyPair → KeyPair)
    (hfix : ∀ r, r.tenant_id = other → f r = r)
    (hten : ∀ r, (f r).tenant_id = r.tenant_id) :
    (l.map f).filter (fun r => r.tenant_id == other) =
      l.filter (fun r => r.tenant_id == other) := by
  induction l with
  | nil => rfl
  | cons r rs ih =>
    rw [List.map_cons, List.filter_cons, List.filter_cons]
    by_cases h : r.tenant_id = other
    · rw [hfix r h]
      simp [h, ih]
    · have h2 : ((f r).tenant_id == other) = false := by
        rw [hten r]
        simp [h]
      have h3 : (r.tenant_id == other) = false := by simp [h]
      rw [h2, h3]
      simpa using ih

/-- C10: tenant isolation — every repository read and write is scoped by the
    single tenant_id of the operation: reads (get_active_unexpired, list_keys,
    get_one, exists) only report records of the queried tenant; writes
    (deactivate_others, create, save) leave the records of every other tenant
    unchanged; and create is blocked only by a duplicate within the same
    tenant, so the same key_id may coexist in different tenants. -/
theorem tenant_isolation (repo : Repo) (t other : String) (k ex_k now : Int)
    (act : Option Bool) (inc : Bool) (lim off : Int) (kp : KeyPair) :
    (∀ r ∈ get_active_unexpired repo t now, r.tenant_id = t)
  ∧ (∀ r ∈ (list_keys_repo repo t act inc now lim off).1, r.tenant_id = t)
  ∧ (∀ r, get_one repo t k = some r → r.tenant_id = t ∧ r.key_id = k)
  ∧ (existsKey repo t k = true ↔ ∃ r ∈ repo, r.tenant_id = t ∧ r.key_id = k)
  ∧ (other ≠ t →
      (deactivate_others repo t ex_k now).1.filter (fun r => r.tenant_id == other)
        = repo.filter (fun r => r.tenant_id == other))
  ∧ (other ≠ t → kp.tenant_id = t → ∀ repo2, Repo.create repo kp = .ok repo2 →
      repo2.filter (fun r => r.tenant_id == other)
        = repo.filter (fun r => r.tenant_id == other))
  ∧ (other ≠ kp.tenant_id →
      (save repo kp).filter (fun r => r.tenant_id == other)
        = repo.filter (fun r => r.tenant_id == other))
  ∧ ((Repo.create repo kp).isOk = true ↔
      ((∃ r ∈ repo, r.tenant_id = kp.tenant_id ∧ r.key_id = kp.key_id) → False)) := by
  refine ⟨?_, ?_, ?_, ?_, ?_, ?_, ?_, ?_⟩
  · intro r hr
    have h1 := (mem_sortByCreatedDesc r _).mp hr
    have h2 := (List.mem_filter.mp h1).2
    simp only [activeUnexpiredPred, Bool.and_eq_true, beq_iff_eq] at h2
    exact h2.1.1
  · intro r hr
    have h1 := List.mem_of_mem_drop (List.mem_of_mem_take hr)
    have h2 := (List.mem_filter.mp ((mem_sortByCreatedDesc r _).mp h1)).2
    simp only [listPred, Bool.and_eq_true, beq_iff_eq] at h2
    exact h2.1.1
  · intro r h
    exact (keyMatches_iff t k r).mp (List.find?_some h)
  · exact existsKey_iff repo t k
  · intro hne
    refine filter_other_map repo other _ ?_ ?_
    · intro r hr
      have hb : (r.tenant_id == t) = false := by
        rw [hr]
        simpa using hne
      have hp : deactPred t ex_k now r = false := by
        simp [deactPred, hb]
      simp [hp]
    · intro r
      by_cases hp : deactPred t ex_k now r = true
      · simp [hp, setActive]
      · simp [Bool.eq_false_iff.mpr hp]
  · intro hne hkt repo2 hcr
    obtain ⟨hr2, _⟩ := repoCreate_ok repo repo2 kp hcr
    rw [hr2, List.filter_append]
    have : (kp.tenant_id == other) = false := by
      simp [hkt]
      exact fun h => hne (h ▸ rfl)
    simp [this]
  · intro hne
    refine filter_other_map repo other _ ?_ ?_
    · intro r hr
      have hb : (r.tenant_id == kp.tenant_id) = false := by
        rw [hr]
        simpa using hne
      have hm : keyMatches kp.tenant_id kp.key_id r = false := by
        simp [keyMatches, hb]
      simp [hm]
    · intro r
      by_cases hm : keyMatches kp.tenant_id kp.key_id r = true
      · simp [hm, setActive]
      · simp [Bool.eq_false_iff.mpr hm]
  · unfold Repo.create
    by_cases he : existsKey repo kp.tenant_id kp.key_id = true
    · rw [if_pos he]
      simp only [Except.isOk, Except.toBool]
      constructor
      · intro h; cases h
      · intro h
        exact absurd ((existsKey_iff repo kp.tenant_id kp.key_id).mp he) h
    · rw [if_neg he]
      simp only [Except.isOk, Except.toBool]
      constructor
      · intro _ hex
        exact he ((existsKey_iff repo kp.tenant_id kp.key_id).mpr hex)
      · intro _; trivial

/-- Records of two tenants sharing content, for the C10 witness. -/
def kpT10 : KeyPair :=
  ⟨"t", 1, "rsa", none, "P", "Q", some 2048, 0, 90, true⟩

/-- Record of the other tenant u with the same key_id, for the C10 witness. -/
def kpU10 : KeyPair :=
  ⟨"u", 1, "rsa", none, "P", "Q", some 2048, 0, 90, true⟩

/-- C10 witness: a deactivate_others on tenant t leaves tenant u's records
    untouched, and tenant u can create key_id 1 although tenant t already
    holds key_id 1, via tenant_isolation. -/
theorem tenant_isolation_witness :
    (deactivate_others [kpT10, kpU10] "t" 99 0).1.filter (fun r => r.tenant_id == "u")
      = [kpT10, kpU10].filter (fun r => r.tenant_id == "u")
  ∧ (Repo.create [kpT10] kpU10).isOk = true := by
  constructor
  · exact (tenant_isolation [kpT10, kpU10] "t" "u" 0 99 0 none false 0 0 kpT10).2.2.2.2.1
      (by decide)
  · exact (tenant_isolation [kpT10] "t" "u" 0 99 0 none false 0 0 kpU10).2.2.2.2.2.2.2.mpr
      (by decide)

/- ---------- C7: list validation and semantics ---------- -/

/-- C7 counterexample: a list call with offset = -1 is not rejected — the
    handler reads offset with int(request.args.get("offset", 0)) and performs
    no validation, so the negative offset is passed through to the repository
    and the call succeeds. -/
theorem negative_offset_not_rejected :
    list_keys_route cfgDefault [] "t" none none none (some (-1)) 0 =
      .ok ⟨0, [], 50, -1⟩ := rfl

/-- Active-unexpired record of the C7 scenario tenant (now = 0). -/
def kListActive : KeyPair :=
  ⟨"t", 1, "rsa", none, "P", "Q", some 2048, 0, 10, true⟩

/-- Expired-but-active record of the C7 scenario tenant. -/
def kListExpired : KeyPair :=
  ⟨"t", 2, "rsa", none, "P", "Q", some 2048, -10, -1, true⟩

/-- Inactive-unexpired record of the C7 scenario tenant. -/
def kListInactive : KeyPair :=
  ⟨"t", 3, "rsa", none, "P", "Q", some 2048, 0, 30, false⟩

/-- The C7 scenario repository: one active-unexpired, one expired-active, one
    inactive-unexpired record of the same tenant. -/
def listScenarioRepo : Repo :=
  [kListActive, kListExpired, kListInactive]

/-- C7 amended: for every list call the effective limit is the requested limit
    clamped to the configured maximum, but the offset is NOT validated (it is
    read with default 0 and passed through, negative values included); the
    delegated list_keys applies no activity filter when active is absent,
    filters to active = value when given, adds expires_at > now exactly when
    include_expired is false, orders results newest-created_at-first, and
    returns a total_count counting the filtered set before pagination — so the
    one-active one-expired one-inactive scenario with active=false,
    include_expired=true returns total 1 containing only the inactive
    record. -/
theorem list_keys_spec (cfg : Cfg) (repo : Repo) (t : String)
    (active_q include_q : Option String) (limit_q offset_q : Option Int)
    (act : Option Bool) (inc : Bool) (now lim off : Int) :
    (∀ resp, list_keys_route cfg repo t active_q include_q limit_q offset_q now = .ok resp →
        resp.limit = min (limit_q.getD cfg.LIST_DEFAULT_LIMIT) cfg.LIST_MAX_LIMIT
      ∧ resp.offset = offset_q.getD 0
      ∧ resp.items = (list_keys_repo repo t (active_q.map (fun s => toLowerAscii s == "true"))
          (toLowerAscii (include_q.getD "false") == "true") now resp.limit resp.offset).1
      ∧ resp.total = (list_keys_repo repo t (active_q.map (fun s => toLowerAscii s == "true"))
          (toLowerAscii (include_q.getD "false") == "true") now resp.limit resp.offset).2)
  ∧ (list_keys_route cfg repo t active_q include_q limit_q offset_q now).isOk = true
  ∧ (list_keys_repo repo t act inc now lim off).2 = repo.countP (listPred t act inc now)
  ∧ (∀ r ∈ (list_keys_repo repo t act inc now lim off).1,
        r ∈ repo ∧ r.tenant_id = t ∧ (∀ b, act = some b → r.active = b)
      ∧ (inc = false → now < r.expires_at))
  ∧ (list_keys_repo repo t act inc now lim off).1.Pairwise
      (fun a b => b.created_at ≤ a.created_at)
  ∧ list_keys_repo listScenarioRepo "t" (some false) true 0 50 0 = ([kListInactive], 1) := by
  refine ⟨?_, ?_, ?_, ?_, ?_, ?_⟩
  · intro resp h
    rw [list_keys_route] at h
    injection h with h2
    subst h2
    exact ⟨rfl, rfl, rfl, rfl⟩
  · rfl
  · simp [list_keys_repo, List.countP_eq_length_filter]
  · intro r hr
    have h1 := List.mem_of_mem_drop (List.mem_of_mem_take hr)
    have h2 := (mem_sortByCreatedDesc r _).mp h1
    obtain ⟨hmem, hp⟩ := List.mem_filter.mp h2
    simp only [listPred, Bool.and_eq_true, beq_iff_eq, Bool.or_eq_true,
      decide_eq_true_eq] at hp
    obtain ⟨⟨ht, hmatch⟩, hexp⟩ := hp
    refine ⟨hmem, ht, ?_, ?_⟩
    · intro b hb
      rw [hb] at hmatch
      simpa using hmatch
    · intro hincf
      rw [hincf] at hexp
      simpa using hexp
  · exact List.Pairwise.sublist
      ((List.take_sublist _ _).trans (List.drop_sublist _ _))
      (pairwise_sortByCreatedDesc _)
  · rfl

/-- C7 witness: the scenario list call through the route handler (clamped
    limit 50, offset 0, filters active=false include_expired=true) returns
    total 1 and exactly the inactive record, via list_keys_spec. -/
theorem list_keys_spec_witness :
    (1 : Nat) = (list_keys_repo listScenarioRepo "t" (some false) true 0 50 0).2
  ∧ [kListInactive] = (list_keys_repo listScenarioRepo "t" (some false) true 0 50 0).1 := by
  have h := (list_keys_spec cfgDefault listScenarioRepo "t" (some "false") (some "true")
    none none (some false) true 0 50 0).1 ⟨1, [kListInactive], 50, 0⟩ rfl
  exact ⟨h.2.2.2, h.2.2.1⟩

/- ---------- C8: base64url unsigned integer encoding ---------- -/

theorem bitLengthAux_zero (fuel : Nat) : bitLengthAux fuel 0 = 0 := by
  cases fuel with
  | zero => rfl
  | succ f => simp [bitLengthAux]

theorem bitLengthAux_spec : ∀ fuel n, n ≤ fuel →
    n < 2 ^ bitLengthAux fuel n ∧ (0 < n → 2 ^ (bitLengthAux fuel n - 1) ≤ n) := by
  intro fuel
  induction fuel with
  | zero =>
    intro n hn
    have h0 : n = 0 := by omega
    subst h0
    simp [bitLengthAux]
  | succ f ih =>
    intro n hn
    by_cases h0 : n = 0
    · subst h0
      simp [bitLengthAux]
    · rw [bitLengthAux, if_neg h0]
      have hhalf : n / 2 ≤ f := by omega
      obtain ⟨ih1, ih2⟩ := ih (n / 2) hhalf
      constructor
      · have h2 : 2 ^ (bitLengthAux f (n / 2) + 1) = 2 * 2 ^ bitLengthAux f (n / 2) := by
          rw [pow_succ]
          ring
        rw [h2]
        omega
      · intro _
        rw [Nat.add_sub_cancel]
        by_cases hh : n / 2 = 0
        · have h1 : n = 1 := by omega
          subst h1
          simp [bitLengthAux_zero]
        · have hbl : 0 < bitLengthAux f (n / 2) := by
            by_contra hb
            have hz : bitLengthAux f (n / 2) = 0 := by omega
            rw [hz, pow_zero] at ih1
            omega
          have h2 := ih2 (by omega)
          have h3 : 2 ^ bitLengthAux f (n / 2) = 2 * 2 ^ (bitLengthAux f (n / 2) - 1) := by
            rw [← pow_succ']
            congr 1
            omega
          rw [h3]
          omega

theorem bitLength_lt (n : Nat) : n < 2 ^ bitLength n :=
  (bitLengthAux_spec n n le_rfl).1

theorem bitLength_le_self (n : Nat) (hn : 0 < n) : 2 ^ (bitLength n - 1) ≤ n :=
  (bitLengthAux_spec n n le_rfl).2 hn

theorem bitLength_pos (n : Nat) (hn : 0 < n) : 0 < bitLength n := by
  by_contra h
  have hz : bitLength n = 0 := by omega
  have h2 := bitLength_lt n
  rw [hz, pow_zero] at h2
  omega

theorem lt_256_pow (n : Nat) : n < 256 ^ ((bitLength n + 7) / 8) := by
  have h2 : bitLength n ≤ 8 * ((bitLength n + 7) / 8) := by omega
  calc n < 2 ^ bitLength n := bitLength_lt n
    _ ≤ 2 ^ (8 * ((bitLength n + 7) / 8)) := Nat.pow_le_pow_right (by norm_num) h2
    _ = 256 ^ ((bitLength n + 7) / 8) := by rw [pow_mul]; norm_num

theorem fromBytesBE_append (xs : List Nat) (b : Nat) :
    fromBytesBE (xs ++ [b]) = fromBytesBE xs * 256 + b := by
  simp [fromBytesBE, List.foldl_append]

theorem fromBytesBE_toBytesBE (l : Nat) : ∀ n, fromBytesBE (toBytesBE n l) = n % 256 ^ l := by
  induction l with
  | zero =>
    intro n
    simp [toBytesBE, fromBytesBE, Nat.mod_one]
  | succ m ih =>
    intro n
    rw [toBytesBE, fromBytesBE_append, ih]
    rw [pow_succ']
    rw [Nat.mod_mul]
    ring

theorem toBytesBE_head (l : Nat) :
    ∀ n, (toBytesBE n (l + 1)).head? = some (n / 256 ^ l % 256) := by
  induction l with
  | zero =>
    intro n
    simp [toBytesBE]
  | succ m ih =>
    intro n
    rw [toBytesBE, List.head?_append, ih (n / 256)]
    simp only [Option.or_some]
    rw [Nat.div_div_eq_div_mul, ← pow_succ']

theorem uintBytes_roundtrip (n : Nat) : fromBytesBE (uintBytes n) = n := by
  rw [uintBytes, fromBytesBE_toBytesBE, Nat.mod_eq_of_lt (lt_256_pow n)]

theorem uintBytes_head_ne_zero (n : Nat) (hn : 0 < n) :
    ∀ b, (uintBytes n).head? = some b → b ≠ 0 := by
  intro b hb
  have hbl : 0 < bitLength n := bitLength_pos n hn
  have hL : 0 < (bitLength n + 7) / 8 := by omega
  obtain ⟨M, hM⟩ : ∃ M, (bitLength n + 7) / 8 = M + 1 :=
    ⟨(bitLength n + 7) / 8 - 1, by omega⟩
  rw [uintBytes, hM, toBytesBE_head] at hb
  injection hb with hb2
  have hle : 256 ^ M ≤ n := by
    have h8 : 8 * M ≤ bitLength n - 1 := by omega
    calc 256 ^ M = 2 ^ (8 * M) := by rw [pow_mul]; norm_num
      _ ≤ 2 ^ (bitLength n - 1) := Nat.pow_le_pow_right (by norm_num) h8
      _ ≤ n := bitLength_le_self n hn
  have hlt2 : n < 256 ^ (M + 1) := by
    rw [← hM]
    exact lt_256_pow n
  have hdivlt : n / 256 ^ M < 256 := by
    rw [Nat.div_lt_iff_lt_mul (by positivity)]
    calc n < 256 ^ (M + 1) := hlt2
      _ = 256 * 256 ^ M := by rw [pow_succ']
  have hdivpos : 0 < n / 256 ^ M := Nat.div_pos hle (by positivity)
  rw [← hb2, Nat.mod_eq_of_lt hdivlt]
  omega

theorem dropWhile_head_false (p : Char → Bool) (l : List Char) (a : Char)
    (h : (l.dropWhile p).head? = some a) : p a = false := by
  induction l with
  | nil => simp [List.dropWhile] at h
  | cons x xs ih =>
    rw [List.dropWhile_cons] at h
    by_cases hx : p x = true
    · rw [if_pos hx] at h
      exact ih h
    · rw [if_neg hx] at h
      injection h with h2
      subst h2
      exact Bool.eq_false_iff.mpr hx

theorem rstripEq_getLast_ne (cs : List Char) (c : Char)
    (h : (rstripEq cs).getLast? = some c) : (c == '=') = false := by
  rw [rstripEq, List.getLast?_reverse] at h
  exact dropWhile_head_false (fun x => x == Char.ofNat 61) cs.reverse c h

/-- C8 counterexample: the published encoding of zero is the empty string
    (bit_length 0 is 0, so zero is encoded as zero bytes), not the single zero
    byte the claim states, whose encoding would be "AA". -/
theorem b64url_uint_zero_empty :
    b64url_uint 0 = "" ∧ b64url [0] = "AA" ∧ ("" : String) ≠ "AA" :=
  ⟨rfl, rfl, by decide⟩

/-- C8 amended: for every non-negative integer n the published base64url
    encoding of n is unpadded (no trailing padding character) and encodes the
    minimal big-endian byte sequence of n — decoding the bytes big-endian
    gives back n, and the sequence has no leading zero byte — with zero
    encoded as the EMPTY byte sequence (so b64url_uint 0 is the empty string),
    not as a single zero byte. -/
theorem b64url_uint_spec (n : Nat) :
    (∀ c, (b64url_uint n).toList.getLast? = some c → c ≠ '=')
  ∧ b64url_uint n = b64url (uintBytes n)
  ∧ fromBytesBE (uintBytes n) = n
  ∧ (0 < n → ∀ b, (uintBytes n).head? = some b → b ≠ 0)
  ∧ uintBytes 0 = [] := by
  refine ⟨?_, rfl, uintBytes_roundtrip n, uintBytes_head_ne_zero n, rfl⟩
  intro c hc
  have h2 : (rstripEq (b64encodePadded (uintBytes n))).getLast? = some c := hc
  have h3 := rstripEq_getLast_ne _ _ h2
  simpa using h3

/-- C8 witness: the encoding of 65537 (the RSA public exponent, published as
    the JWK "e" field) through b64url_uint_spec — its last character is not
    padding, its bytes decode back to 65537, and its leading byte is nonzero;
    concretely the encoding is "AQAB". -/
theorem b64url_uint_spec_witness :
    b64url_uint 65537 = "AQAB"
  ∧ fromBytesBE (uintBytes 65537) = 65537
  ∧ (∀ b, (uintBytes 65537).head? = some b → b ≠ 0) := by
  have h := b64url_uint_spec 65537
  exact ⟨rfl, h.2.2.1, h.2.2.2.1 (by norm_num)⟩

/- ---------- C3: rotation deactivates previous keys ---------- -/

theorem deactPred_iff (t : String) (ex now : Int) (r : KeyPair) :
    deactPred t ex now r = true ↔
      r.tenant_id = t ∧ r.active = true ∧ now < r.expires_at ∧ r.key_id ≠ ex := by
  simp [deactPred, and_assoc]

theorem activeUnexpiredPred_iff (t : String) (now : Int) (r : KeyPair) :
    activeUnexpiredPred t now r = true ↔
      r.tenant_id = t ∧ r.active = true ∧ now < r.expires_at := by
  simp [activeUnexpiredPred, and_assoc]

/-- C3: for every tenant holding an active-unexpired key A, a rotate with
    deactivate_previous = true that creates key B leaves exactly one
    active-unexpired key for that tenant — B itself — when
    get_active_unexpired is queried after the call returns (at any now_q from
    the deactivation instant up to B's expiry); and deactivate_others flips
    active = false on exactly the records of the tenant that are active,
    unexpired at the given now, and not the excluded key_id, returning the
    number of records changed. -/
theorem rotation_spec :
    (∀ (cfg : Cfg) (repo : Repo) (t : String) (payload : Payload) (cands : Nat → Int)
        (pv pb : String) (now_c now_d now_q : Int) (repo2 : Repo) (B A : KeyPair),
      payload.deactivate_previous = some true →
      A ∈ repo → A.tenant_id = t → A.active = true → now_c < A.expires_at →
      rotate_key cfg repo t payload cands pv pb now_c now_d = .ok (repo2, B) →
      now_c ≤ now_d → now_d ≤ now_q → now_q < B.expires_at →
      get_active_unexpired repo2 t now_q = [B])
  ∧ (∀ (repo : Repo) (t : String) (ex now : Int),
      (deactivate_others repo t ex now).2 = (repo.filter (deactPred t ex now)).length
    ∧ List.Forall₂ (fun r r2 =>
        ((r.tenant_id = t ∧ r.active = true ∧ now < r.expires_at ∧ r.key_id ≠ ex) →
          r2 = setActive r false)
        ∧ (((r.tenant_id = t ∧ r.active = true ∧ now < r.expires_at ∧ r.key_id ≠ ex) → False) →
          r2 = r)) repo (deactivate_others repo t ex now).1) := by
  constructor
  · intro cfg repo t payload cands pv pb now_c now_d now_q repo2 B A
    intro hprev hA hAt hAact hAexp hrot hcd hdq hBq
    simp only [rotate_key, hprev, Option.getD, if_true] at hrot
    cases hck : create_key cfg repo t payload cands pv pb now_c with
    | error e => rw [hck] at hrot; exact absurd hrot (by simp)
    | ok pr =>
      obtain ⟨repo1, kp⟩ := pr
      rw [hck] at hrot
      simp only [Except.ok.injEq, Prod.mk.injEq] at hrot
      obtain ⟨hr2, hkb⟩ := hrot
      rw [hkb] at hck hr2
      obtain ⟨hrepo1, hBt, hBact, _, _, _, hex, _⟩ :=
        create_key_ok cfg repo t payload cands pv pb now_c repo1 B hck
      subst hrepo1
      subst hr2
      rw [get_active_unexpired]
      simp only [deactivate_others, List.map_append, List.map_cons, List.map_nil]
      have hfB : (if deactPred t B.key_id now_d B then setActive B false else B) = B := by
        have hfalse : deactPred t B.key_id now_d B = false := by
          simp [deactPred]
        rw [hfalse]
        simp
      rw [hfB, List.filter_append]
      have hempty : (repo.map
          (fun r => if deactPred t B.key_id now_d r then setActive r false else r)).filter
          (activeUnexpiredPred t now_q) = [] := by
        rw [List.filter_eq_nil_iff]
        intro x hx
        obtain ⟨r, hr, hfr⟩ := List.mem_map.mp hx
        subst hfr
        by_cases hp : deactPred t B.key_id now_d r = true
        · rw [if_pos hp]
          simp [activeUnexpiredPred, setActive]
        · rw [if_neg hp]
          have hp2 : ¬(r.tenant_id = t ∧ r.active = true ∧ now_d < r.expires_at ∧
              r.key_id ≠ B.key_id) := by
            rw [← deactPred_iff t B.key_id now_d r]
            exact hp
          intro hq
          obtain ⟨hqt, hqa, hqe⟩ := (activeUnexpiredPred_iff t now_q r).mp hq
          by_cases hkey : r.key_id = B.key_id
          · have hexists : existsKey repo t B.key_id = true :=
              (existsKey_iff repo t B.key_id).mpr ⟨r, hr, hqt, hkey⟩
            rw [hexists] at hex
            cases hex
          · exact hp2 ⟨hqt, hqa, by omega, hkey⟩
      rw [hempty]
      have hqB : activeUnexpiredPred t now_q B = true :=
        (activeUnexpiredPred_iff t now_q B).mpr ⟨hBt, hBact, hBq⟩
      simp [List.filter, hqB, sortByCreatedDesc, insertByCreatedDesc]
  · intro repo t ex now
    constructor
    · simp [deactivate_others, List.countP_eq_length_filter]
    · simp only [deactivate_others]
      induction repo with
      | nil => constructor
      | cons r rs ih =>
        rw [List.map_cons]
        refine List.Forall₂.cons ?_ ih
        by_cases hp : deactPred t ex now r = true
        · rw [if_pos hp]
          refine ⟨fun _ => rfl, fun hno => ?_⟩
          exact absurd ((deactPred_iff t ex now r).mp hp) hno
        · rw [if_neg hp]
          refine ⟨fun hyes => ?_, fun _ => rfl⟩
          exact absurd ((deactPred_iff t ex now r).mpr hyes) hp

/-- Previously active key of the C3 witness tenant. -/
def kpRotA : KeyPair :=
  ⟨"t", 1, "rsa", none, "P", "Q", some 2048, 0, 90, true⟩

/-- Key created by the C3 witness rotation. -/
def kpRotB : KeyPair :=
  ⟨"t", 2, "rsa", none, "P2", "Q2", some 2048, 1, 91, true⟩

/-- C3 witness: a concrete rotation with deactivate_previous over a tenant
    holding one active key leaves exactly the new key active-unexpired, via
    rotation_spec. -/
theorem rotation_spec_witness :
    get_active_unexpired [setActive kpRotA false, kpRotB] "t" 2 = [kpRotB] :=
  rotation_spec.1 cfgDefault [kpRotA] "t" ⟨none, none, none, some (.int 2), some true⟩
    cands0 "P2" "Q2" 1 1 2 [setActive kpRotA false, kpRotB] kpRotB kpRotA
    rfl (by simp) rfl rfl (by decide) rfl (by decide) (by decide) (by decide)

end KeyService
